import Mathlib

/-!
Shallow embedding of the core of `pl.py` (region-diagram generator): the
record parser and the TikZ diagram generator implemented by
`generate_output_for_input_file` and its helpers (`s2f`, `get_span`,
`latex_safe_text`, `get_output_header_for_vars`, `get_output_footer`).

Modelling conventions:
* Python floats are modelled as exact rationals (`ℚ`).  The conversion
  `float(Fraction(s))` in `s2f` is modelled faithfully as exact rational
  parsing followed by correctly rounded (round-to-nearest, ties-to-even)
  conversion to the binary64 grid (`roundFloat`), including the subnormal
  exponent clamp and the overflow check.  Arithmetic performed after that
  conversion (span subtraction, division by the split count, decimal
  rounding) is idealised as exact rational arithmetic.
* Python `round(x, n)` and the `:.2f` format are modelled as exact decimal
  rounding with ties-to-even (`pyRound`, `formatF2`), which is what CPython
  computes on the exact binary value of its float argument.
* The regular expression search of line 244 of `pl.py` is implemented
  directly: the pattern has the property that every character class in it
  excludes the character that must follow the class, so Python's greedy
  backtracking search coincides with maximal-munch matching tried at every
  start position, which is what `searchPattern` does.  The `\w` class is
  modelled over its ASCII fragment (letters, digits, underscore).
* `str` rendering of a float (used for the raw coordinates in the output)
  is modelled as exact terminating decimal rendering (`showF`); no theorem
  below depends on the exact text of those coordinates.
* File-system handling, CLI parsing, spinners and the batch loop of
  `pl.py` are boundary glue outside the embedded core.
-/

set_option allowUnsafeReducibility true
set_option maxRecDepth 4000
set_option exponentiation.threshold 1100

attribute [semireducible] Rat.add Rat.sub Rat.neg Rat.mul Rat.div Rat.inv

deriving instance DecidableEq for Except

namespace RD

/-- Errors the embedded core can signal, mirroring the Python exceptions:
`UnexpectedFormatException` (with the 0-based line index it reports),
`UnknownStateException` (with the state label its message names),
`ValueError` and `ZeroDivisionError` from `fractions.Fraction`,
`ZeroDivisionError` from dividing a span by a zero split count (merged in
one constructor, as in Python both are `ZeroDivisionError`),
`OverflowError` from `float(...)` on a huge rational, and the `TypeError`
raised by `get_span(None, None)` when no record was parsed. -/
inductive PyError where
  | unexpectedFormat (lineNo : Nat)
  | unknownState (state : String)
  | valueError
  | zeroDivision
  | overflowError
  | typeError
  deriving Repr, DecidableEq

/-- Character class `\w` of the record regex (ASCII fragment). -/
def isWordChar (c : Char) : Bool := c.isAlphanum || c = '_'

/-- Character class `[0-9/]` of the record regex. -/
def isBoundChar (c : Char) : Bool := c.isDigit || c = '/'

/-- Greedy maximal run of characters satisfying `p`, returning the run and
the rest. -/
def takeClass (p : Char → Bool) : List Char → List Char × List Char
  | [] => ([], [])
  | c :: rest =>
    if p c then
      let pr := takeClass p rest
      (c :: pr.1, pr.2)
    else ([], c :: rest)

/-- Expect the literal `lit` at the front of the input; return the rest on
success. -/
def stripLit : List Char → List Char → Option (List Char)
  | [], cs => some cs
  | _ :: _, [] => none
  | l :: ls, c :: cs => if c = l then stripLit ls cs else none

/-- The seven capture groups of the record regex
`([\w]*): ([0-9/]*)<=([\w]*)<=([0-9/]*),([0-9/]*)<=([\w]*)<=([0-9/]*);`. -/
structure RegexGroups where
  state : String
  x0 : String
  x_axis : String
  x1 : String
  y0 : String
  y_axis : String
  y1 : String
  deriving Repr, DecidableEq

/-- Match the record regex starting exactly at the head of the input
(characters after the final `;` are ignored, as `re.search` ignores them). -/
def matchPatternAt (cs : List Char) : Option RegexGroups :=
  let p1 := takeClass isWordChar cs
  match stripLit [':', ' '] p1.2 with
  | none => none
  | some r1 =>
  let p2 := takeClass isBoundChar r1
  match stripLit ['<', '='] p2.2 with
  | none => none
  | some r2 =>
  let p3 := takeClass isWordChar r2
  match stripLit ['<', '='] p3.2 with
  | none => none
  | some r3 =>
  let p4 := takeClass isBoundChar r3
  match stripLit [','] p4.2 with
  | none => none
  | some r4 =>
  let p5 := takeClass isBoundChar r4
  match stripLit ['<', '='] p5.2 with
  | none => none
  | some r5 =>
  let p6 := takeClass isWordChar r5
  match stripLit ['<', '='] p6.2 with
  | none => none
  | some r6 =>
  let p7 := takeClass isBoundChar r6
  match stripLit [';'] p7.2 with
  | none => none
  | some _ =>
    some ⟨String.mk p1.1, String.mk p2.1, String.mk p3.1, String.mk p4.1,
          String.mk p5.1, String.mk p6.1, String.mk p7.1⟩

/-- Leftmost occurrence of the record regex, as found by `re.search`: try a
match at every start position, left to right. -/
def searchPattern : List Char → Option RegexGroups
  | [] => matchPatternAt []
  | c :: rest =>
    match matchPatternAt (c :: rest) with
    | some g => some g
    | none => searchPattern rest

/-- Split a character list at every `/` (so `"1/2"` gives two parts, and a
string without `/` gives one part). -/
def splitSlash : List Char → List (List Char)
  | [] => [[]]
  | c :: rest =>
    if c = '/' then [] :: splitSlash rest
    else
      match splitSlash rest with
      | [] => [[c]]
      | p :: ps => (c :: p) :: ps

/-- A non-empty all-digit character run. -/
def isDigits (cs : List Char) : Bool := !cs.isEmpty && cs.all (fun c => c.isDigit)

/-- Numeric value of a digit run. -/
def digitsToNat (cs : List Char) : ℕ :=
  cs.foldl (fun a c => 10 * a + (c.toNat - 48)) 0

/-- The exact rational parse performed by `fractions.Fraction` on the bound
strings reachable from the regex groups (strings over digits and `/`): a
digit run is an integer, `a/b` with digit runs `a`, `b` is the exact
rational `a / b` (rejecting a zero denominator with `ZeroDivisionError`),
and everything else (empty runs, several slashes) is a `ValueError`.
Fraction syntax that the group character class `[0-9/]` cannot produce
(signs, decimal points, whitespace) is unreachable here. -/
def parseFraction (s : String) : Except PyError ℚ :=
  match splitSlash s.data with
  | [ds] =>
    if isDigits ds then Except.ok ((digitsToNat ds : ℚ)) else Except.error PyError.valueError
  | [ns, ds] =>
    if isDigits ns && isDigits ds then
      if digitsToNat ds = 0 then Except.error PyError.zeroDivision
      else Except.ok ((digitsToNat ns : ℚ) / (digitsToNat ds : ℚ))
    else Except.error PyError.valueError
  | _ => Except.error PyError.valueError

/-- Fuel-driven binary logarithm on `ℕ` (the fuel `n` itself always
suffices). -/
def log2Aux : ℕ → ℕ → ℕ
  | 0, _ => 0
  | fuel + 1, n => if n ≤ 1 then 0 else log2Aux fuel (n / 2) + 1

/-- Floor of the binary logarithm of a positive natural number. -/
def log2F (n : ℕ) : ℕ := log2Aux n n

/-- Binade exponent of a positive rational: the unique `e` with
`2^e ≤ q < 2^(e+1)`. -/
def binExp (q : ℚ) : ℤ :=
  let a := q.num.toNat
  let K := log2F q.den + 1
  (log2F (a * 2 ^ K / q.den) : ℤ) - (K : ℤ)

/-- Integer power of two as a rational, by cases on the sign of the
exponent (computed through `Nat.pow` to keep kernel reduction fast). -/
def pow2z : ℤ → ℚ
  | Int.ofNat n => ((2 ^ n : ℕ) : ℚ)
  | Int.negSucc n => 1 / ((2 ^ (n + 1) : ℕ) : ℚ)

/-- Round a rational to the nearest integer, ties to even (the rounding
CPython uses for float conversion, `round` and `format`). -/
def roundHalfEvenQ (q : ℚ) : ℤ :=
  let f : ℤ := ⌊q⌋
  let r : ℚ := q - (f : ℚ)
  if r < 1 / 2 then f
  else if 1 / 2 < r then f + 1
  else if f % 2 = 0 then f else f + 1

/-- Correctly rounded conversion of a non-negative rational to the binary64
grid: round-to-nearest, ties-to-even, at 53 significant bits, with the
exponent clamped below at the subnormal limit.  This is the value CPython's
`float(Fraction(...))` produces (overflow is checked by the caller `s2f`). -/
def roundFloat (q : ℚ) : ℚ :=
  if q ≤ 0 then 0
  else
    let g : ℤ := max (binExp q) (-1022) - 52
    (roundHalfEvenQ (q / pow2z g) : ℚ) * pow2z g

/-- Line 200 of `pl.py`: `s2f(float_string) = float(Fraction(float_string))`,
exact rational parsing followed by correctly rounded conversion to float
(with `OverflowError` when the result exceeds the float range). -/
def s2f (float_string : String) : Except PyError ℚ :=
  match parseFraction float_string with
  | Except.error e => Except.error e
  | Except.ok q =>
    let v := roundFloat q
    if ((2 ^ 1024 : ℕ) : ℚ) ≤ v then Except.error PyError.overflowError
    else Except.ok v

/-- Python `round(x, ndigits)`: decimal rounding, ties-to-even, on the exact
value. -/
def pyRound (x : ℚ) (ndigits : ℕ) : ℚ :=
  (roundHalfEvenQ (x * ((10 ^ ndigits : ℕ) : ℚ)) : ℚ) / ((10 ^ ndigits : ℕ) : ℚ)

/-- Two-character zero-padded rendering of `k % 100`. -/
def twoDigits (k : ℕ) : String :=
  String.mk [Nat.digitChar (k / 10 % 10), Nat.digitChar (k % 10)]

/-- Python `f"{x:.2f}"`: fixed-point rendering with exactly two digits after
the decimal point (rounding ties-to-even). -/
def formatF2 (x : ℚ) : String :=
  let n : ℤ := roundHalfEvenQ (x * 100)
  let m : ℕ := n.natAbs
  (if n < 0 then "-" else "") ++ toString (m / 100) ++ "." ++ twoDigits (m % 100)

/-- Smallest `k` (within fuel) such that `d` divides `10^k`, used to render
a dyadic rational as a terminating decimal. -/
def decExpAux (d : ℕ) : ℕ → ℕ → ℕ
  | 0, k => k
  | fuel + 1, k => if 10 ^ k % d = 0 then k else decExpAux d fuel (k + 1)

/-- Fixed-width digit rendering of `v` with exactly `k` digits (leading
zeros kept). -/
def padDigits : ℕ → ℕ → String
  | 0, _ => ""
  | k + 1, v => padDigits k (v / 10) ++ String.mk [Nat.digitChar (v % 10)]

/-- Python `str` of a float, modelled as exact terminating decimal
rendering of the (dyadic) value, with the `.0` suffix Python prints for
integral floats.  (CPython prints the shortest decimal that round-trips;
for the dyadic values in the concrete runs below the two coincide, and no
theorem depends on this text.) -/
def showF (x : ℚ) : String :=
  let sign := if x < 0 then "-" else ""
  let a := x.num.natAbs
  let b := x.den
  if b = 1 then sign ++ toString a ++ ".0"
  else
    let k := decExpAux b b 0
    let n := a * 10 ^ k / b
    sign ++ toString (n / 10 ^ k) ++ "." ++ padDigits k (n % 10 ^ k)

/-- Line 231 of `pl.py`: `latex_safe_text(text) = text.replace("_", "\\_")`,
every underscore replaced by backslash-underscore. -/
def latex_safe_text (text : String) : String :=
  String.mk (text.data.flatMap (fun c => if c = '_' then ['\\', '_'] else [c]))

/-- Characters after the last `/` of a path (the `name` of a `pathlib`
path). -/
def afterLastSlashAux : List Char → List Char → List Char
  | [], acc => acc.reverse
  | c :: rest, acc =>
    if c = '/' then afterLastSlashAux rest []
    else afterLastSlashAux rest (c :: acc)

/-- Index of the last `.` in a name, if any. -/
def lastDotIdxAux : List Char → ℕ → Option ℕ → Option ℕ
  | [], _, best => best
  | c :: rest, i, best => lastDotIdxAux rest (i + 1) (if c = '.' then some i else best)

/-- Python `Path(p).stem`: the final path component with its suffix
removed; a suffix exists when the last dot is neither the first nor the
last character of the name. -/
def pathStem (p : String) : String :=
  let name := afterLastSlashAux p.data []
  match lastDotIdxAux name 0 none with
  | some i => if 0 < i ∧ i + 1 < name.length then String.mk (name.take i) else String.mk name
  | none => String.mk name

/-- The configuration surface the core reads from `args`: split counts
(ints; the CLI boundary validates positivity, the core does not), rounding
digit counts, the printed form of the line width, and the title
suppression flag. -/
structure Config where
  x_split : ℤ
  y_split : ℤ
  x_split_rounding : ℕ
  y_split_rounding : ℕ
  line_width : String
  no_title : Bool
  deriving Repr, DecidableEq

/-- The style map `graph_styles`: state label to style fragment. -/
def StyleMap : Type := List (String × String)

/-- The default style map built at lines 119 to 127 of `pl.py` when no
style file is loaded. -/
def default_graph_styles : StyleMap :=
  [("ExistsSat", ""),
   ("AllSat", "pattern=crosshatch dots,pattern color=green,preaction=\x7bfill,green!30\x7d,"),
   ("ExistsViolated", ""),
   ("AllViolated", "pattern=crosshatch,pattern color=red,preaction=\x7bfill,red!30\x7d,"),
   ("Unknown", ""),
   ("CenterSat", ""),
   ("CenterViolated", "")]

/-- Mutable state of the parsing loop of `generate_output_for_input_file`:
the four running bounds (Python `None` is `Option.none`), the accumulated
draw commands, and the last-seen axis names (undefined before the first
record; the empty-string defaults here are never rendered because the
zero-record path fails before the header is built). -/
structure LoopState where
  x_min : Option ℚ
  x_max : Option ℚ
  y_min : Option ℚ
  y_max : Option ℚ
  rects : String
  x_axis : String
  y_axis : String
  deriving Repr, DecidableEq

/-- Loop state before the first line. -/
def initState : LoopState :=
  { x_min := none, x_max := none, y_min := none, y_max := none,
    rects := "", x_axis := "", y_axis := "" }

/-- Lines 257 and 258 of `pl.py`: `if x_min is None or x0 < x_min: x_min = x0`. -/
def stepMin (acc : Option ℚ) (x : ℚ) : Option ℚ :=
  match acc with
  | none => some x
  | some m => if x < m then some x else some m

/-- Lines 259 and 260 of `pl.py`: `if x_max is None or x1 > x_max: x_max = x1`. -/
def stepMax (acc : Option ℚ) (x : ℚ) : Option ℚ :=
  match acc with
  | none => some x
  | some m => if m < x then some x else some m

/-- Line 228 of `pl.py`: `get_span(min, max) = max - min` (the `float`
annotated signature; the `None` case raising `TypeError` is checked at the
call site in `generate_output_for_input_file` below). -/
def get_span (min max : ℚ) : ℚ := max - min

/-- Lines 203 to 220 of `pl.py`: the axis header, with the tick distances
rendered via `:.2f` and the bounds via default float rendering. -/
def get_output_header_for_vars (x_min x_max y_min y_max : ℚ)
    (x_tick_distance y_tick_distance : ℚ) (x_axis y_axis title : String) : String :=
  "\n\\begin\x7btikzpicture\x7d\n\\begin\x7baxis\x7d[\naxis lines=middle,\naxis equal,\n" ++
  "every axis x label/.style=\n    \x7bat=\x7b(ticklabel cs: 0.5,0)\x7d, anchor=north\x7d,\n" ++
  "every axis y label/.style=\n    \x7bat=\x7b(ticklabel cs: 0.5,0)\x7d, anchor=east\x7d,\n" ++
  "xmin=" ++ showF x_min ++ ",xmax=" ++ showF x_max ++
  ",ymin=" ++ showF y_min ++ ",ymax=" ++ showF y_max ++ ",\n" ++
  "xtick distance=" ++ formatF2 x_tick_distance ++ ",\n" ++
  "ytick distance=" ++ formatF2 y_tick_distance ++ ",\n" ++
  "xlabel=" ++ x_axis ++ ",\n" ++
  "ylabel=" ++ y_axis ++ ",\n" ++
  "title=\x7b" ++ title ++ "\x7d\n]\n"

/-- Lines 222 to 226 of `pl.py`: the closing block (the stray `[` after
`\end{axis}` is in the source). -/
def get_output_footer : String :=
  "\n\\end\x7baxis\x7d[\n\\end\x7btikzpicture\x7d\n"

/-- One iteration of the `for line_no, line in enumerate(lines)` loop of
`generate_output_for_input_file` (lines 243 to 273 of `pl.py`): regex
search, the dead empty-line skip, bound conversion through `s2f`, running
bounds update, style lookup, and draw-command append. -/
def processLine (args : Config) (graph_styles : StyleMap) (st : LoopState)
    (line_no : ℕ) (line : String) : Except PyError LoopState :=
  match searchPattern line.data with
  | none =>
    if line = "" then Except.ok st
    else Except.error (PyError.unexpectedFormat line_no)
  | some g =>
    match s2f g.x0 with
    | Except.error e => Except.error e
    | Except.ok x0 =>
    match s2f g.x1 with
    | Except.error e => Except.error e
    | Except.ok x1 =>
    match s2f g.y0 with
    | Except.error e => Except.error e
    | Except.ok y0 =>
    match s2f g.y1 with
    | Except.error e => Except.error e
    | Except.ok y1 =>
    match List.lookup g.state graph_styles with
    | none => Except.error (PyError.unknownState g.state)
    | some sty =>
      let rectangle_style := sty ++ "line width = " ++ args.line_width ++ "mm"
      Except.ok
        { x_min := stepMin st.x_min x0
          x_max := stepMax st.x_max x1
          y_min := stepMin st.y_min y0
          y_max := stepMax st.y_max y1
          rects := st.rects ++ "\\draw [" ++ rectangle_style ++ "] (" ++
            showF x0 ++ "," ++ showF y0 ++ ") rectangle (" ++
            showF x1 ++ "," ++ showF y1 ++ ");\n"
          x_axis := g.x_axis
          y_axis := g.y_axis }

/-- The whole parsing loop, threading the line index and the state. -/
def runLines (args : Config) (graph_styles : StyleMap) :
    List String → ℕ → LoopState → Except PyError LoopState
  | [], _, st => Except.ok st
  | line :: rest, i, st =>
    match processLine args graph_styles st i line with
    | Except.error e => Except.error e
    | Except.ok st1 => runLines args graph_styles rest (i + 1) st1

/-- Python `readlines` on already newline-translated text: split after
every newline character, keeping it, and keep a last line without one. -/
def readlinesAux : List Char → List Char → List String
  | [], cur => if cur.isEmpty then [] else [String.mk cur.reverse]
  | c :: rest, cur =>
    if c = '\n' then String.mk (c :: cur).reverse :: readlinesAux rest []
    else readlinesAux rest (c :: cur)

/-- Python `input_file_handle.readlines()` of the whole input text. -/
def readlines (text : String) : List String := readlinesAux text.data []

/-- Lines 234 to 283 of `pl.py`: `generate_output_for_input_file`, from the
raw text of the input file and its name to the output document or the
exception that aborts the conversion.  The `None` checks on the bounds
model the `TypeError` that `get_span(None, None)` raises, and the zero
split checks model the `ZeroDivisionError` of the tick division. -/
def generate_output_for_input_file (args : Config) (graph_styles : StyleMap)
    (text : String) (input_file_name : String) : Except PyError String :=
  match runLines args graph_styles (readlines text) 0 initState with
  | Except.error e => Except.error e
  | Except.ok st =>
    match st.x_min, st.x_max, st.y_min, st.y_max with
    | some xmn, some xmx, some ymn, some ymx =>
      let x_span := get_span xmn xmx
      let y_span := get_span ymn ymx
      if args.x_split = 0 then Except.error PyError.zeroDivision
      else if args.y_split = 0 then Except.error PyError.zeroDivision
      else
        let x_tick_distance := pyRound (x_span / (args.x_split : ℚ)) args.x_split_rounding
        let y_tick_distance := pyRound (y_span / (args.y_split : ℚ)) args.y_split_rounding
        let title := if args.no_title then "" else latex_safe_text (pathStem input_file_name)
        Except.ok
          (get_output_header_for_vars xmn xmx ymn ymx x_tick_distance y_tick_distance
            st.x_axis st.y_axis title ++ st.rects ++ get_output_footer)
    | _, _, _, _ => Except.error PyError.typeError

/-- A parsed rectangle record (the data of one accepted line). -/
structure Record where
  state : String
  x0 : ℚ
  x1 : ℚ
  y0 : ℚ
  y1 : ℚ
  deriving Repr, DecidableEq

/-- The record a line yields when the regex finds a match and all four
bounds convert: the specification-side view of one loop iteration. -/
def lineRecord (line : String) : Option Record :=
  match searchPattern line.data with
  | none => none
  | some g =>
    match s2f g.x0, s2f g.x1, s2f g.y0, s2f g.y1 with
    | Except.ok x0, Except.ok x1, Except.ok y0, Except.ok y1 =>
      some ⟨g.state, x0, x1, y0, y1⟩
    | _, _, _, _ => none

/-- The ordered sequence of records parsed from a list of lines. -/
def parsedRecords (lines : List String) : List Record :=
  lines.filterMap lineRecord

/-- The defaults of the CLI boundary layer (`--x-split 5 --y-split 5
--x-split-rounding 1 --y-split-rounding 1 --line-width 0`, titles on),
used for the concrete runs below. -/
def default_args : Config :=
  { x_split := 5, y_split := 5, x_split_rounding := 1, y_split_rounding := 1,
    line_width := "0", no_title := false }

/-- A configuration with negative split counts (excluded by the CLI
validation, but representable in the core's types). -/
def neg_split_args : Config :=
  { x_split := -1, y_split := -1, x_split_rounding := 1, y_split_rounding := 1,
    line_width := "0", no_title := false }

/-- A configuration with a zero x split count. -/
def zero_split_args : Config :=
  { x_split := 0, y_split := 5, x_split_rounding := 1, y_split_rounding := 1,
    line_width := "0", no_title := false }

/-- Concrete two-record input exercising the asymmetric bounds. -/
def twoRecText : String :=
  "AllSat: 1/4<=p<=2,0<=q<=1;\nAllViolated: 1/2<=p<=1,1/4<=q<=3;"

/-- Loop state after parsing `twoRecText` under the default configuration. -/
def twoRecState : LoopState :=
  { x_min := some (1/4), x_max := some 2, y_min := some 0, y_max := some 3,
    rects := "\\draw [pattern=crosshatch dots,pattern color=green,preaction=\x7bfill,green!30\x7d,line width = 0mm] (0.25,0.0) rectangle (2.0,1.0);\n\\draw [pattern=crosshatch,pattern color=red,preaction=\x7bfill,red!30\x7d,line width = 0mm] (0.5,0.25) rectangle (1.0,3.0);\n",
    x_axis := "p", y_axis := "q" }

/-- First record of `twoRecText`. -/
def twoRecFirst : Record := ⟨"AllSat", 1/4, 2, 0, 1⟩

/-- Remaining records of `twoRecText`. -/
def twoRecRest : List Record := [⟨"AllViolated", 1/2, 1, 1/4, 3⟩]

/-- Concrete single-record input. -/
def oneRecText : String := "AllSat: 0<=p<=1,0<=q<=1;"

/-- Loop state after parsing `oneRecText`. -/
def oneRecState : LoopState :=
  { x_min := some 0, x_max := some 1, y_min := some 0, y_max := some 1,
    rects := "\\draw [pattern=crosshatch dots,pattern color=green,preaction=\x7bfill,green!30\x7d,line width = 0mm] (0.0,0.0) rectangle (1.0,1.0);\n",
    x_axis := "p", y_axis := "q" }

/-- The rationals exactly representable in binary64 (sign-magnitude
53-bit significand, exponent down to the subnormal limit; competitors
above the top exponent only make the nearest-float statements stronger). -/
def IsRepr (r : ℚ) : Prop :=
  ∃ m e : ℤ, m.natAbs ≤ 2 ^ 53 ∧ -1074 ≤ e ∧ r = (m : ℚ) * (2 : ℚ) ^ e

/-- Associativity of string append, at the list-of-characters level. -/
theorem strAppend_assoc (a b c : String) : a ++ b ++ c = a ++ (b ++ c) := by
  cases a with | mk la =>
  cases b with | mk lb =>
  cases c with | mk lc =>
  show String.mk (la ++ lb ++ lc) = String.mk (la ++ (lb ++ lc))
  rw [List.append_assoc]

/-- On a `some` accumulator, the running-minimum step is `min`. -/
theorem stepMin_some (a x : ℚ) : stepMin (some a) x = some (min a x) := by
  show (if x < a then some x else some a) = some (min a x)
  rcases lt_or_le x a with h | h
  · rw [if_pos h, min_eq_right h.le]
  · rw [if_neg (not_lt.mpr h), min_eq_left h]

/-- On a `some` accumulator, the running-maximum step is `max`. -/
theorem stepMax_some (a x : ℚ) : stepMax (some a) x = some (max a x) := by
  show (if a < x then some x else some a) = some (max a x)
  rcases lt_or_le a x with h | h
  · rw [if_pos h, max_eq_right h.le]
  · rw [if_neg (not_lt.mpr h), max_eq_left h]

/-- A successful loop iteration either skips the line (no record: only the
dead empty-line branch) or processes exactly the record the line yields,
updating the four running bounds through `stepMin`/`stepMax`. -/
theorem processLine_ok_cases (args : Config) (styles : StyleMap) (st : LoopState)
    (i : ℕ) (line : String) (st1 : LoopState)
    (h : processLine args styles st i line = Except.ok st1) :
    (lineRecord line = none ∧ st1 = st) ∨
    (∃ r, lineRecord line = some r ∧
      st1.x_min = stepMin st.x_min r.x0 ∧ st1.x_max = stepMax st.x_max r.x1 ∧
      st1.y_min = stepMin st.y_min r.y0 ∧ st1.y_max = stepMax st.y_max r.y1) := by
  unfold processLine at h
  cases hs : searchPattern line.data with
  | none =>
    simp only [hs] at h
    left
    by_cases he : line = ""
    · rw [if_pos he] at h
      cases h
      exact ⟨by simp only [lineRecord, hs], rfl⟩
    · rw [if_neg he] at h
      cases h
  | some g =>
    simp only [hs] at h
    cases h0 : s2f g.x0 with
    | error e => simp only [h0] at h; exact Except.noConfusion h
    | ok x0 =>
    simp only [h0] at h
    cases h1 : s2f g.x1 with
    | error e => simp only [h1] at h; exact Except.noConfusion h
    | ok x1 =>
    simp only [h1] at h
    cases h2 : s2f g.y0 with
    | error e => simp only [h2] at h; exact Except.noConfusion h
    | ok y0 =>
    simp only [h2] at h
    cases h3 : s2f g.y1 with
    | error e => simp only [h3] at h; exact Except.noConfusion h
    | ok y1 =>
    simp only [h3] at h
    cases hl : List.lookup g.state styles with
    | none => simp only [hl] at h; exact Except.noConfusion h
    | some sty =>
    simp only [hl, Except.ok.injEq] at h
    right
    refine ⟨⟨g.state, x0, x1, y0, y1⟩, by simp only [lineRecord, hs, h0, h1, h2, h3], ?_, ?_, ?_, ?_⟩ <;>
      rw [← h]

/-- Invariant of the parsing loop: on success, each final bound
accumulator is the fold of its step function over the corresponding field
of the parsed records. -/
theorem runLines_bounds (args : Config) (styles : StyleMap) (lines : List String) :
    ∀ (i : ℕ) (st0 st : LoopState),
      runLines args styles lines i st0 = Except.ok st →
      st.x_min = ((parsedRecords lines).map Record.x0).foldl stepMin st0.x_min ∧
      st.x_max = ((parsedRecords lines).map Record.x1).foldl stepMax st0.x_max ∧
      st.y_min = ((parsedRecords lines).map Record.y0).foldl stepMin st0.y_min ∧
      st.y_max = ((parsedRecords lines).map Record.y1).foldl stepMax st0.y_max := by
  induction lines with
  | nil =>
    intro i st0 st h
    unfold runLines at h
    cases h
    simp [parsedRecords]
  | cons line rest ih =>
    intro i st0 st h
    unfold runLines at h
    cases hp : processLine args styles st0 i line with
    | error e => simp only [hp] at h; exact Except.noConfusion h
    | ok st1 =>
    simp only [hp] at h
    have IH := ih (i + 1) st1 st h
    rcases processLine_ok_cases args styles st0 i line st1 hp with
      ⟨hnone, rfl⟩ | ⟨r, hr, e1, e2, e3, e4⟩
    · simpa [parsedRecords, List.filterMap_cons, hnone] using IH
    · rw [e1, e2, e3, e4] at IH
      simpa [parsedRecords, List.filterMap_cons, hr] using IH

/-- Folding the running-minimum step from a `some` start computes the list
minimum. -/
theorem foldl_stepMin_some (l : List ℚ) : ∀ a : ℚ,
    l.foldl stepMin (some a) = some (l.foldl min a) := by
  induction l with
  | nil => intro a; rfl
  | cons x xs ih => intro a; rw [List.foldl_cons, stepMin_some, ih, List.foldl_cons]

/-- Folding the running-maximum step from a `some` start computes the list
maximum. -/
theorem foldl_stepMax_some (l : List ℚ) : ∀ a : ℚ,
    l.foldl stepMax (some a) = some (l.foldl max a) := by
  induction l with
  | nil => intro a; rfl
  | cons x xs ih => intro a; rw [List.foldl_cons, stepMax_some, ih, List.foldl_cons]

/-- Splitting the line list splits the loop, with the line index advanced
by the length of the first part. -/
theorem runLines_append (args : Config) (styles : StyleMap) (l1 l2 : List String) :
    ∀ (i : ℕ) (st : LoopState),
      runLines args styles (l1 ++ l2) i st =
        match runLines args styles l1 i st with
        | Except.ok st1 => runLines args styles l2 (i + l1.length) st1
        | Except.error e => Except.error e := by
  induction l1 with
  | nil => intro i st; simp [runLines]
  | cons line rest ih =>
    intro i st
    simp only [List.cons_append, runLines, List.length_cons]
    cases hp : processLine args styles st i line with
    | error e => simp only [hp]
    | ok st1 =>
      simp only [hp]
      have harith : i + 1 + rest.length = i + (rest.length + 1) := by omega
      rw [← harith]
      exact ih (i + 1) st1

/-- A parse-loop failure aborts the conversion with that error and no
document. -/
theorem generate_error_of_runLines (args : Config) (styles : StyleMap)
    (text name : String) (e : PyError)
    (h : runLines args styles (readlines text) 0 initState = Except.error e) :
    generate_output_for_input_file args styles text name = Except.error e := by
  unfold generate_output_for_input_file
  simp only [h]

/-- C1: diagram bounds are computed asymmetrically: for every run of the
generator loop that parses a non-empty sequence of records, the final
`x_min` is the minimum over the records' `x0` fields only, `x_max` the
maximum over the `x1` fields only, `y_min` the minimum over `y0`, and
`y_max` the maximum over `y1`; the lower-bound fields never feed the
maxima and the upper-bound fields never feed the minima. -/
theorem bounds_asymmetric_minmax (args : Config) (styles : StyleMap)
    (text : String) (st : LoopState) (r : Record) (rs : List Record)
    (hrun : runLines args styles (readlines text) 0 initState = Except.ok st)
    (hrecs : parsedRecords (readlines text) = r :: rs) :
    st.x_min = some ((rs.map Record.x0).foldl min r.x0) ∧
    st.x_max = some ((rs.map Record.x1).foldl max r.x1) ∧
    st.y_min = some ((rs.map Record.y0).foldl min r.y0) ∧
    st.y_max = some ((rs.map Record.y1).foldl max r.y1) := by
  have H := runLines_bounds args styles (readlines text) 0 initState st hrun
  rw [hrecs] at H
  simp only [List.map_cons, List.foldl_cons] at H
  obtain ⟨H1, H2, H3, H4⟩ := H
  refine ⟨?_, ?_, ?_, ?_⟩
  · rw [H1]; exact foldl_stepMin_some (rs.map Record.x0) r.x0
  · rw [H2]; exact foldl_stepMax_some (rs.map Record.x1) r.x1
  · rw [H3]; exact foldl_stepMin_some (rs.map Record.y0) r.y0
  · rw [H4]; exact foldl_stepMax_some (rs.map Record.y1) r.y1

/-- C9: the generator is only total on inputs yielding at least one
record: when the loop succeeds but parsed zero records, the bounds
accumulators are still `None`, and the span computation raises the
`TypeError`, so no document is returned. -/
theorem zero_records_type_error (args : Config) (styles : StyleMap)
    (text name : String) (st : LoopState)
    (hrun : runLines args styles (readlines text) 0 initState = Except.ok st)
    (hzero : parsedRecords (readlines text) = []) :
    generate_output_for_input_file args styles text name =
      Except.error PyError.typeError := by
  have H := (runLines_bounds args styles (readlines text) 0 initState st hrun).1
  rw [hzero] at H
  simp only [List.map_nil, List.foldl_nil] at H
  have hnone : st.x_min = none := H
  unfold generate_output_for_input_file
  simp only [hrun]
  rcases st with ⟨xm, xM, ym, yM, rects, xa, ya⟩
  simp only at hnone
  subst hnone
  rfl

/-- C3 (amended): a line in which the record regex finds no occurrence
anywhere, reached after a successfully processed prefix of lines, aborts
the conversion with a format error carrying that line's 0-based index. -/
theorem no_match_format_error (args : Config) (styles : StyleMap)
    (text name : String) (pre : List String) (line : String)
    (post : List String) (st : LoopState)
    (hsplit : readlines text = pre ++ line :: post)
    (hpre : runLines args styles pre 0 initState = Except.ok st)
    (hsearch : searchPattern line.data = none)
    (hne : line ≠ "") :
    generate_output_for_input_file args styles text name =
      Except.error (PyError.unexpectedFormat pre.length) := by
  have hp : processLine args styles st pre.length line =
      Except.error (PyError.unexpectedFormat pre.length) := by
    unfold processLine
    simp only [hsearch]
    rw [if_neg hne]
  unfold generate_output_for_input_file
  rw [hsplit, runLines_append args styles pre (line :: post) 0 initState]
  simp only [hpre]
  unfold runLines
  simp only [Nat.zero_add, hp]

/-- C5 (amended): a zero split count on either axis makes the tick
computation signal the division error (negative split counts are not
rejected: see the counterexample theorem). -/
theorem zero_split_division_error (args : Config) (styles : StyleMap)
    (text name : String) (st : LoopState) (xmn xmx ymn ymx : ℚ)
    (hrun : runLines args styles (readlines text) 0 initState = Except.ok st)
    (h1 : st.x_min = some xmn) (h2 : st.x_max = some xmx)
    (h3 : st.y_min = some ymn) (h4 : st.y_max = some ymx)
    (hz : args.x_split = 0 ∨ args.y_split = 0) :
    generate_output_for_input_file args styles text name =
      Except.error PyError.zeroDivision := by
  unfold generate_output_for_input_file
  simp only [hrun, h1, h2, h3, h4]
  by_cases hx : args.x_split = 0
  · rw [if_pos hx]
  · rw [if_neg hx, if_pos (hz.resolve_left hx)]

/-- C7: a line the regex accepts whose state label is missing from the
style map aborts the conversion with the unknown-state error naming that
label, and no document is produced. -/
theorem unknown_state_error (args : Config) (styles : StyleMap)
    (text name : String) (pre : List String) (line : String)
    (post : List String) (st : LoopState) (g : RegexGroups)
    (x0v x1v y0v y1v : ℚ)
    (hsplit : readlines text = pre ++ line :: post)
    (hpre : runLines args styles pre 0 initState = Except.ok st)
    (hsearch : searchPattern line.data = some g)
    (hx0 : s2f g.x0 = Except.ok x0v) (hx1 : s2f g.x1 = Except.ok x1v)
    (hy0 : s2f g.y0 = Except.ok y0v) (hy1 : s2f g.y1 = Except.ok y1v)
    (hlook : List.lookup g.state styles = none) :
    generate_output_for_input_file args styles text name =
      Except.error (PyError.unknownState g.state) := by
  have hp : processLine args styles st pre.length line =
      Except.error (PyError.unknownState g.state) := by
    unfold processLine
    simp only [hsearch, hx0, hx1, hy0, hy1, hlook]
  unfold generate_output_for_input_file
  rw [hsplit, runLines_append args styles pre (line :: post) 0 initState]
  simp only [hpre]
  unfold runLines
  simp only [Nat.zero_add, hp]

/-- C4 evidence: the code does not skip empty lines.  Python `readlines`
yields `"\n"` for an empty line, never `""`, so the `line == ""` skip
branch is dead: a file consisting of one empty line raises the format
error for line 0, and an empty line between two well-formed records
raises it for line 1 instead of parsing the surrounding records. -/
theorem empty_line_not_skipped :
    generate_output_for_input_file default_args default_graph_styles "\n"
        "f.regionresult" = Except.error (PyError.unexpectedFormat 0) ∧
    generate_output_for_input_file default_args default_graph_styles
        "AllSat: 0<=p<=1,0<=q<=1;\n\nAllSat: 0<=p<=1,0<=q<=1;\n"
        "f.regionresult" = Except.error (PyError.unexpectedFormat 1) :=
  ⟨by decide, by decide⟩

/-- C3 counterexample: the line `AllSat: /<=p<=1,0<=q<=1;` does not match
the pattern as the claim characterises it (the bound `/` is neither a
non-negative integer nor a fraction of two), yet conversion fails with the
`ValueError` of the numeric conversion, not a `FormatError` carrying the
line's 0-based index. -/
theorem c3_counterexample :
    generate_output_for_input_file default_args default_graph_styles
        "AllSat: /<=p<=1,0<=q<=1;" "f.regionresult" =
      Except.error PyError.valueError ∧
    generate_output_for_input_file default_args default_graph_styles
        "AllSat: /<=p<=1,0<=q<=1;" "f.regionresult" ≠
      Except.error (PyError.unexpectedFormat 0) :=
  ⟨by decide, by decide⟩

/-- C5 counterexample: with split count `-1` on both axes the core signals
no error at all: it silently produces a full document (with tick distance
`-1.00` in the header). -/
theorem c5_counterexample :
    generate_output_for_input_file neg_split_args default_graph_styles
        oneRecText "f.regionresult" =
      Except.ok ("\n\\begin\x7btikzpicture\x7d\n\\begin\x7baxis\x7d[\naxis lines=middle,\naxis equal,\nevery axis x label/.style=\n    \x7bat=\x7b(ticklabel cs: 0.5,0)\x7d, anchor=north\x7d,\nevery axis y label/.style=\n    \x7bat=\x7b(ticklabel cs: 0.5,0)\x7d, anchor=east\x7d,\nxmin=0.0,xmax=1.0,ymin=0.0,ymax=1.0,\nxtick distance=-1.00,\nytick distance=-1.00,\nxlabel=p,\nylabel=q,\ntitle=\x7bf\x7d\n]\n\\draw [pattern=crosshatch dots,pattern color=green,preaction=\x7bfill,green!30\x7d,line width = 0mm] (0.0,0.0) rectangle (1.0,1.0);\n\n\\end\x7baxis\x7d[\n\\end\x7btikzpicture\x7d\n") :=
  by decide

/-- Witness for C1 at the concrete two-record input `twoRecText`. -/
theorem bounds_asymmetric_minmax_witness :
    twoRecState.x_min = some ((twoRecRest.map Record.x0).foldl min twoRecFirst.x0) ∧
    twoRecState.x_max = some ((twoRecRest.map Record.x1).foldl max twoRecFirst.x1) ∧
    twoRecState.y_min = some ((twoRecRest.map Record.y0).foldl min twoRecFirst.y0) ∧
    twoRecState.y_max = some ((twoRecRest.map Record.y1).foldl max twoRecFirst.y1) :=
  bounds_asymmetric_minmax default_args default_graph_styles twoRecText twoRecState
    twoRecFirst twoRecRest (by decide) (by decide)

/-- Witness for C9: the empty file parses zero records and the span
computation raises the TypeError. -/
theorem zero_records_type_error_witness :
    generate_output_for_input_file default_args default_graph_styles "" "f.regionresult" =
      Except.error PyError.typeError :=
  zero_records_type_error default_args default_graph_styles "" "f.regionresult" initState
    (by decide) (by decide)

/-- Witness for the amended C3 at the malformed line `garbage text`. -/
theorem no_match_format_error_witness :
    generate_output_for_input_file default_args default_graph_styles "garbage text"
        "f.regionresult" = Except.error (PyError.unexpectedFormat 0) :=
  no_match_format_error default_args default_graph_styles "garbage text" "f.regionresult"
    [] "garbage text" [] initState (by decide) (by decide) (by decide) (by decide)

/-- Witness for the amended C5 at a zero x split count. -/
theorem zero_split_division_error_witness :
    generate_output_for_input_file zero_split_args default_graph_styles oneRecText
        "f.regionresult" = Except.error PyError.zeroDivision :=
  zero_split_division_error zero_split_args default_graph_styles oneRecText "f.regionresult"
    oneRecState 0 1 0 1 (by decide) (by decide) (by decide) (by decide) (by decide)
    (Or.inl (by decide))

/-- Witness for C7 at the spec's own example line with an unknown label. -/
theorem unknown_state_error_witness :
    generate_output_for_input_file default_args default_graph_styles
        "Foo: 0<=p<=1,0<=q<=1;" "f.regionresult" =
      Except.error (PyError.unknownState "Foo") :=
  unknown_state_error default_args default_graph_styles "Foo: 0<=p<=1,0<=q<=1;"
    "f.regionresult" [] "Foo: 0<=p<=1,0<=q<=1;" [] initState
    ⟨"Foo", "0", "p", "1", "0", "q", "1"⟩ 0 1 0 1
    (by decide) (by decide) (by decide) (by decide) (by decide) (by decide) (by decide)
    (by decide)

/-- On a successful run with at least one record and nonzero split counts,
the generator returns exactly the assembled document: header with the two
rounded tick distances, the accumulated draw commands, and the footer. -/
theorem generate_ok_decomposition (args : Config) (styles : StyleMap)
    (text name : String) (st : LoopState) (xmn xmx ymn ymx : ℚ)
    (hrun : runLines args styles (readlines text) 0 initState = Except.ok st)
    (h1 : st.x_min = some xmn) (h2 : st.x_max = some xmx)
    (h3 : st.y_min = some ymn) (h4 : st.y_max = some ymx)
    (hxs : args.x_split ≠ 0) (hys : args.y_split ≠ 0) :
    generate_output_for_input_file args styles text name = Except.ok
      (get_output_header_for_vars xmn xmx ymn ymx
        (pyRound (get_span xmn xmx / (args.x_split : ℚ)) args.x_split_rounding)
        (pyRound (get_span ymn ymx / (args.y_split : ℚ)) args.y_split_rounding)
        st.x_axis st.y_axis
        (if args.no_title then "" else latex_safe_text (pathStem name)) ++
      st.rects ++ get_output_footer) := by
  unfold generate_output_for_input_file
  simp only [hrun, h1, h2, h3, h4]
  rw [if_neg hxs, if_neg hys]

/-- Digit characters are digits. -/
theorem digitChar_isDigit (n : ℕ) (h : n < 10) : (Nat.digitChar n).isDigit = true := by
  interval_cases n <;> decide

/-- The fixed-point `:.2f` rendering always has exactly two digits after
the decimal point, whatever the rounding-digits setting produced its
argument. -/
theorem formatF2_two_digits (q : ℚ) :
    ∃ (s : String) (d1 d2 : Char), d1.isDigit = true ∧ d2.isDigit = true ∧
      formatF2 q = s ++ "." ++ String.mk [d1, d2] := by
  refine ⟨(if (roundHalfEvenQ (q * 100) : ℤ) < 0 then "-" else "") ++
      toString ((roundHalfEvenQ (q * 100)).natAbs / 100),
    Nat.digitChar ((roundHalfEvenQ (q * 100)).natAbs % 100 / 10 % 10),
    Nat.digitChar ((roundHalfEvenQ (q * 100)).natAbs % 100 % 10), ?_, ?_, ?_⟩
  · exact digitChar_isDigit _ (Nat.mod_lt _ (by omega))
  · exact digitChar_isDigit _ (Nat.mod_lt _ (by omega))
  · rfl

/-- C2: with records parsed and positive split counts, the header renders,
for each axis independently, the tick distance
`round((max - min) / split_count, rounding_digits)`, and the `:.2f`
rendering gives exactly two decimal digits regardless of the
rounding-digits setting. -/
theorem tick_distance_rendered (args : Config) (styles : StyleMap)
    (text name : String) (st : LoopState) (xmn xmx ymn ymx : ℚ)
    (hrun : runLines args styles (readlines text) 0 initState = Except.ok st)
    (h1 : st.x_min = some xmn) (h2 : st.x_max = some xmx)
    (h3 : st.y_min = some ymn) (h4 : st.y_max = some ymx)
    (hxs : 0 < args.x_split) (hys : 0 < args.y_split) :
    (∃ pre post, generate_output_for_input_file args styles text name =
      Except.ok (pre ++ "xtick distance=" ++
        formatF2 (pyRound ((xmx - xmn) / (args.x_split : ℚ)) args.x_split_rounding) ++
        ",\n" ++ "ytick distance=" ++
        formatF2 (pyRound ((ymx - ymn) / (args.y_split : ℚ)) args.y_split_rounding) ++
        ",\n" ++ post)) ∧
    ∀ q : ℚ, ∃ (s : String) (d1 d2 : Char), d1.isDigit = true ∧ d2.isDigit = true ∧
      formatF2 q = s ++ "." ++ String.mk [d1, d2] := by
  have hgen := generate_ok_decomposition args styles text name st xmn xmx ymn ymx
    hrun h1 h2 h3 h4 (by omega) (by omega)
  constructor
  · refine ⟨"\n\\begin\x7btikzpicture\x7d\n\\begin\x7baxis\x7d[\naxis lines=middle,\naxis equal,\n" ++
      "every axis x label/.style=\n    \x7bat=\x7b(ticklabel cs: 0.5,0)\x7d, anchor=north\x7d,\n" ++
      "every axis y label/.style=\n    \x7bat=\x7b(ticklabel cs: 0.5,0)\x7d, anchor=east\x7d,\n" ++
      "xmin=" ++ showF xmn ++ ",xmax=" ++ showF xmx ++
      ",ymin=" ++ showF ymn ++ ",ymax=" ++ showF ymx ++ ",\n",
      "xlabel=" ++ st.x_axis ++ ",\n" ++ "ylabel=" ++ st.y_axis ++ ",\n" ++
      "title=\x7b" ++ (if args.no_title then "" else latex_safe_text (pathStem name)) ++
      "\x7d\n]\n" ++ st.rects ++ get_output_footer, ?_⟩
    rw [hgen]
    simp only [get_output_header_for_vars, get_span, strAppend_assoc]
  · exact formatF2_two_digits

/-- C8: every produced document renders, between `title={` and `}`, the
empty string when title suppression is configured and otherwise the input
file's base name with its extension stripped and each underscore escaped;
in particular base name `run_1` renders as `run\_1`. -/
theorem title_rendering (args : Config) (styles : StyleMap)
    (text name doc : String)
    (hok : generate_output_for_input_file args styles text name = Except.ok doc) :
    (∃ pre post, doc = pre ++ "title=\x7b" ++
        (if args.no_title then "" else latex_safe_text (pathStem name)) ++
        "\x7d\n]\n" ++ post) ∧
    latex_safe_text (pathStem "input/run_1.regionresult") = "run\\_1" := by
  refine ⟨?_, by decide⟩
  unfold generate_output_for_input_file at hok
  cases hrun : runLines args styles (readlines text) 0 initState with
  | error e => simp only [hrun] at hok; exact Except.noConfusion hok
  | ok st =>
  simp only [hrun] at hok
  rcases st with ⟨xm, xM, ym, yM, rects, xa, ya⟩
  cases xm with
  | none => exact Except.noConfusion hok
  | some xmn =>
  cases xM with
  | none => exact Except.noConfusion hok
  | some xmx =>
  cases ym with
  | none => exact Except.noConfusion hok
  | some ymn =>
  cases yM with
  | none => exact Except.noConfusion hok
  | some ymx =>
  simp only at hok
  by_cases hx : args.x_split = 0
  · rw [if_pos hx] at hok
    exact Except.noConfusion hok
  rw [if_neg hx] at hok
  by_cases hy : args.y_split = 0
  · rw [if_pos hy] at hok
    exact Except.noConfusion hok
  rw [if_neg hy, Except.ok.injEq] at hok
  subst hok
  refine ⟨"\n\\begin\x7btikzpicture\x7d\n\\begin\x7baxis\x7d[\naxis lines=middle,\naxis equal,\n" ++
    "every axis x label/.style=\n    \x7bat=\x7b(ticklabel cs: 0.5,0)\x7d, anchor=north\x7d,\n" ++
    "every axis y label/.style=\n    \x7bat=\x7b(ticklabel cs: 0.5,0)\x7d, anchor=east\x7d,\n" ++
    "xmin=" ++ showF xmn ++ ",xmax=" ++ showF xmx ++
    ",ymin=" ++ showF ymn ++ ",ymax=" ++ showF ymx ++ ",\n" ++
    "xtick distance=" ++
    formatF2 (pyRound (get_span xmn xmx / (args.x_split : ℚ)) args.x_split_rounding) ++
    ",\n" ++ "ytick distance=" ++
    formatF2 (pyRound (get_span ymn ymx / (args.y_split : ℚ)) args.y_split_rounding) ++
    ",\n" ++ "xlabel=" ++ xa ++ ",\n" ++ "ylabel=" ++ ya ++ ",\n",
    rects ++ get_output_footer, ?_⟩
  simp only [get_output_header_for_vars, strAppend_assoc]

/-- A character list without slashes is one single part. -/
theorem splitSlash_no_slash (cs : List Char) (h : ∀ c ∈ cs, c ≠ '/') :
    splitSlash cs = [cs] := by
  induction cs with
  | nil => rfl
  | cons c rest ih =>
    have hc : c ≠ '/' := h c (List.mem_cons_self c rest)
    have ih2 := ih (fun x hx => h x (List.mem_cons_of_mem c hx))
    unfold splitSlash
    rw [if_neg hc, ih2]

/-- Splitting `num / den` with slash-free parts gives the two parts. -/
theorem splitSlash_append_slash (num den : List Char)
    (hnum : ∀ c ∈ num, c ≠ '/') (hden : ∀ c ∈ den, c ≠ '/') :
    splitSlash (num ++ '/' :: den) = [num, den] := by
  induction num with
  | nil =>
    show splitSlash ('/' :: den) = [[], den]
    unfold splitSlash
    rw [if_pos rfl, splitSlash_no_slash den hden]
  | cons c cs ih =>
    have hc : c ≠ '/' := hnum c (List.mem_cons_self c cs)
    have ih2 := ih (fun x hx => hnum x (List.mem_cons_of_mem c hx))
    show splitSlash (c :: (cs ++ '/' :: den)) = [c :: cs, den]
    unfold splitSlash
    rw [if_neg hc, ih2]

/-- Digit runs contain no slash. -/
theorem isDigits_no_slash (cs : List Char) (h : isDigits cs = true) :
    ∀ c ∈ cs, c ≠ '/' := by
  intro c hc he
  subst he
  unfold isDigits at h
  rw [Bool.and_eq_true] at h
  have hd := List.all_eq_true.mp h.2 _ hc
  exact absurd hd (by decide)

/-- C10: the record pattern accepts bounds whose numeric conversion still
fails: any fraction bound with a zero denominator passes the regex (its
characters are all digits and slashes) but `Fraction` raises the division
error, not a `FormatError`; in particular the line
`AllSat: 1/0<=p<=1,0<=q<=1;` matches the pattern with bound `1/0` and the
conversion aborts with the division error, producing no document. -/
theorem zero_denominator_zero_division :
    (∀ num den : List Char, isDigits num = true → isDigits den = true →
        digitsToNat den = 0 →
        parseFraction (String.mk (num ++ '/' :: den)) =
          Except.error PyError.zeroDivision) ∧
    (∃ g : RegexGroups, searchPattern ("AllSat: 1/0<=p<=1,0<=q<=1;".data) = some g ∧
        g.x0 = "1/0" ∧ s2f g.x0 = Except.error PyError.zeroDivision) ∧
    generate_output_for_input_file default_args default_graph_styles
      "AllSat: 1/0<=p<=1,0<=q<=1;" "f.regionresult" =
        Except.error PyError.zeroDivision := by
  refine ⟨?_, ⟨⟨"AllSat", "1/0", "p", "1", "0", "q", "1"⟩, by decide, by decide, by decide⟩,
    by decide⟩
  intro num den hnum hden hzero
  unfold parseFraction
  show (match splitSlash (num ++ '/' :: den) with
    | [ds] => if isDigits ds then Except.ok ((digitsToNat ds : ℚ))
        else Except.error PyError.valueError
    | [ns, ds] => if isDigits ns && isDigits ds then
          if digitsToNat ds = 0 then Except.error PyError.zeroDivision
          else Except.ok ((digitsToNat ns : ℚ) / (digitsToNat ds : ℚ))
        else Except.error PyError.valueError
    | _ => Except.error PyError.valueError) = Except.error PyError.zeroDivision
  rw [splitSlash_append_slash num den (isDigits_no_slash num hnum) (isDigits_no_slash den hden)]
  simp [hnum, hden, hzero]

/-- Witness for C2 at the concrete single-record input `oneRecText`. -/
theorem tick_distance_rendered_witness :
    (∃ pre post, generate_output_for_input_file default_args default_graph_styles oneRecText
        "f.regionresult" = Except.ok (pre ++ "xtick distance=" ++
        formatF2 (pyRound ((1 - 0) / (default_args.x_split : ℚ)) default_args.x_split_rounding) ++
        ",\n" ++ "ytick distance=" ++
        formatF2 (pyRound ((1 - 0) / (default_args.y_split : ℚ)) default_args.y_split_rounding) ++
        ",\n" ++ post)) ∧
    ∀ q : ℚ, ∃ (s : String) (d1 d2 : Char), d1.isDigit = true ∧ d2.isDigit = true ∧
      formatF2 q = s ++ "." ++ String.mk [d1, d2] :=
  tick_distance_rendered default_args default_graph_styles oneRecText "f.regionresult"
    oneRecState 0 1 0 1 (by decide) (by decide) (by decide) (by decide) (by decide)
    (by decide) (by decide)

/-- Witness for C8 at the document produced for `input/run_1.regionresult`. -/
theorem title_rendering_witness :
    (∃ pre post, "\n\\begin\x7btikzpicture\x7d\n\\begin\x7baxis\x7d[\naxis lines=middle,\naxis equal,\nevery axis x label/.style=\n    \x7bat=\x7b(ticklabel cs: 0.5,0)\x7d, anchor=north\x7d,\nevery axis y label/.style=\n    \x7bat=\x7b(ticklabel cs: 0.5,0)\x7d, anchor=east\x7d,\nxmin=0.0,xmax=1.0,ymin=0.0,ymax=1.0,\nxtick distance=0.20,\nytick distance=0.20,\nxlabel=p,\nylabel=q,\ntitle=\x7brun\\_1\x7d\n]\n\\draw [pattern=crosshatch dots,pattern color=green,preaction=\x7bfill,green!30\x7d,line width = 0mm] (0.0,0.0) rectangle (1.0,1.0);\n\n\\end\x7baxis\x7d[\n\\end\x7btikzpicture\x7d\n" = pre ++ "title=\x7b" ++
        (if default_args.no_title then ""
         else latex_safe_text (pathStem "input/run_1.regionresult")) ++
        "\x7d\n]\n" ++ post) ∧
    latex_safe_text (pathStem "input/run_1.regionresult") = "run\\_1" :=
  title_rendering default_args default_graph_styles oneRecText "input/run_1.regionresult"
    "\n\\begin\x7btikzpicture\x7d\n\\begin\x7baxis\x7d[\naxis lines=middle,\naxis equal,\nevery axis x label/.style=\n    \x7bat=\x7b(ticklabel cs: 0.5,0)\x7d, anchor=north\x7d,\nevery axis y label/.style=\n    \x7bat=\x7b(ticklabel cs: 0.5,0)\x7d, anchor=east\x7d,\nxmin=0.0,xmax=1.0,ymin=0.0,ymax=1.0,\nxtick distance=0.20,\nytick distance=0.20,\nxlabel=p,\nylabel=q,\ntitle=\x7brun\\_1\x7d\n]\n\\draw [pattern=crosshatch dots,pattern color=green,preaction=\x7bfill,green!30\x7d,line width = 0mm] (0.0,0.0) rectangle (1.0,1.0);\n\n\\end\x7baxis\x7d[\n\\end\x7btikzpicture\x7d\n" (by decide)

/-- Witness for C10 at the bound string `1/0`. -/
theorem zero_denominator_zero_division_witness :
    parseFraction (String.mk (['1'] ++ '/' :: ['0'])) = Except.error PyError.zeroDivision :=
  zero_denominator_zero_division.1 ['1'] ['0'] (by decide) (by decide) (by decide)

/-- Specification of the fuel-driven logarithm: with enough fuel it brackets
its positive argument between consecutive powers of two. -/
theorem log2Aux_spec : ∀ fuel n : ℕ, 0 < n → n ≤ fuel →
    2 ^ log2Aux fuel n ≤ n ∧ n < 2 ^ (log2Aux fuel n + 1) := by
  intro fuel
  induction fuel with
  | zero => intro n h1 h2; exact absurd (lt_of_lt_of_le h1 h2) (lt_irrefl 0)
  | succ fuel ih =>
    intro n h1 h2
    unfold log2Aux
    by_cases hn : n ≤ 1
    · rw [if_pos hn]
      have hone : n = 1 := by omega
      subst hone
      exact ⟨by norm_num, by norm_num⟩
    · rw [if_neg hn]
      obtain ⟨hl, hr⟩ := ih (n / 2) (by omega) (by omega)
      have hp1 : 2 ^ (log2Aux fuel (n / 2) + 1) = 2 * 2 ^ log2Aux fuel (n / 2) := by
        rw [pow_succ]; ring
      have hp2 : 2 ^ (log2Aux fuel (n / 2) + 1 + 1) = 2 * 2 ^ (log2Aux fuel (n / 2) + 1) := by
        rw [pow_succ]; ring
      refine ⟨?_, ?_⟩ <;> omega

/-- The binary logarithm brackets every positive natural number. -/
theorem log2F_spec (n : ℕ) (h : 0 < n) :
    2 ^ log2F n ≤ n ∧ n < 2 ^ (log2F n + 1) :=
  log2Aux_spec n n h le_rfl

/-- The case-defined power of two agrees with `zpow`. -/
theorem pow2z_eq (g : ℤ) : pow2z g = (2 : ℚ) ^ g := by
  cases g with
  | ofNat n =>
    show ((2 ^ n : ℕ) : ℚ) = (2 : ℚ) ^ (n : ℤ)
    rw [zpow_natCast]
    push_cast
    ring
  | negSucc n =>
    show 1 / ((2 ^ (n + 1) : ℕ) : ℚ) = (2 : ℚ) ^ (Int.negSucc n)
    rw [zpow_negSucc, one_div]
    congr 1
    push_cast
    ring

/-- The binade exponent brackets every positive rational between the two
surrounding powers of two. -/
theorem binExp_spec (q : ℚ) (h : 0 < q) :
    (2 : ℚ) ^ binExp q ≤ q ∧ q < (2 : ℚ) ^ (binExp q + 1) := by
  have hnum : 0 < q.num := Rat.num_pos.mpr h
  have ha : 0 < q.num.toNat := by omega
  have hb : 0 < q.den := q.den_pos
  set a := q.num.toNat with hadef
  set b := q.den with hbdef
  set K := log2F b + 1 with hKdef
  have hbK : b < 2 ^ K := (log2F_spec b hb).2
  set t := a * 2 ^ K / b with htdef
  have htpos : 0 < t := by
    apply Nat.div_pos ?_ hb
    calc b ≤ 2 ^ K := hbK.le
    _ ≤ a * 2 ^ K := Nat.le_mul_of_pos_left _ ha
  obtain ⟨hl1, hl2⟩ := log2F_spec t htpos
  set l := log2F t with hldef
  have key1 : 2 ^ l * b ≤ a * 2 ^ K := by
    calc 2 ^ l * b ≤ t * b := mul_le_mul_right' hl1 b
    _ ≤ a * 2 ^ K := Nat.div_mul_le_self _ _
  have key2 : a * 2 ^ K < 2 ^ (l + 1) * b := by
    have hdm := Nat.div_add_mod (a * 2 ^ K) b
    rw [← htdef] at hdm
    have hmod : a * 2 ^ K % b < b := Nat.mod_lt _ hb
    calc a * 2 ^ K < b * t + b := by omega
    _ = b * (t + 1) := by ring
    _ ≤ b * 2 ^ (l + 1) := mul_le_mul_left' hl2 b
    _ = 2 ^ (l + 1) * b := Nat.mul_comm _ _
  have hbQ : (0 : ℚ) < (b : ℚ) := by exact_mod_cast hb
  have h2KQ : (0 : ℚ) < (2 : ℚ) ^ (K : ℤ) := zpow_pos (by norm_num) _
  have hq : q = (a : ℚ) / (b : ℚ) := by
    have h1 : (a : ℚ) = (q.num : ℚ) := by
      have h2 : (a : ℤ) = q.num := Int.toNat_of_nonneg hnum.le
      exact_mod_cast h2
    rw [h1, hbdef, Rat.num_div_den]
  have hbe : binExp q = (l : ℤ) - (K : ℤ) := rfl
  rw [hbe]
  constructor
  · rw [zpow_sub₀ (by norm_num : (2 : ℚ) ≠ 0), div_le_iff₀ h2KQ, hq,
      div_mul_eq_mul_div, le_div_iff₀ hbQ, zpow_natCast, zpow_natCast]
    exact_mod_cast key1
  · have hexp : (l : ℤ) - (K : ℤ) + 1 = ((l + 1 : ℕ) : ℤ) - (K : ℤ) := by push_cast; ring
    rw [hexp, zpow_sub₀ (by norm_num : (2 : ℚ) ≠ 0), lt_div_iff₀ h2KQ, hq,
      div_mul_eq_mul_div, div_lt_iff₀ hbQ, zpow_natCast, zpow_natCast]
    exact_mod_cast key2

/-- Unfolded form of the ties-to-even rounding. -/
theorem roundHalfEvenQ_def (q : ℚ) :
    roundHalfEvenQ q = if q - (⌊q⌋ : ℚ) < 1 / 2 then ⌊q⌋
      else if 1 / 2 < q - (⌊q⌋ : ℚ) then ⌊q⌋ + 1
      else if ⌊q⌋ % 2 = 0 then ⌊q⌋ else ⌊q⌋ + 1 := rfl

/-- Ties-to-even rounding is at least the floor. -/
theorem rhe_ge_floor (q : ℚ) : ⌊q⌋ ≤ roundHalfEvenQ q := by
  rw [roundHalfEvenQ_def]
  split_ifs <;> omega

/-- Ties-to-even rounding is at most the floor plus one. -/
theorem rhe_le_floor_add_one (q : ℚ) : roundHalfEvenQ q ≤ ⌊q⌋ + 1 := by
  rw [roundHalfEvenQ_def]
  split_ifs <;> omega

/-- Ties-to-even rounding moves its argument by at most one half. -/
theorem rhe_near (q : ℚ) : |q - (roundHalfEvenQ q : ℚ)| ≤ 1 / 2 := by
  have h1 : (⌊q⌋ : ℚ) ≤ q := Int.floor_le q
  have h2 : q < ⌊q⌋ + 1 := Int.lt_floor_add_one q
  rw [roundHalfEvenQ_def]
  split_ifs with ha hb hc
  · rw [abs_of_nonneg (by linarith)]
    linarith
  · push_cast
    rw [abs_of_nonpos (by linarith)]
    linarith
  · rw [abs_of_nonneg (by linarith)]
    linarith
  · push_cast
    rw [abs_of_nonpos (by linarith)]
    linarith

/-- Ties-to-even rounding yields a nearest integer. -/
theorem rhe_nearest_int (x : ℚ) (k : ℤ) :
    |x - (roundHalfEvenQ x : ℚ)| ≤ |x - (k : ℚ)| := by
  by_cases hk : k = roundHalfEvenQ x
  · subst hk
    exact le_refl _
  · have h1 := rhe_near x
    have h2 : (1 : ℚ) ≤ |(roundHalfEvenQ x : ℚ) - (k : ℚ)| := by
      have hz : (1 : ℤ) ≤ |roundHalfEvenQ x - k| := Int.one_le_abs (by omega)
      calc (1 : ℚ) = ((1 : ℤ) : ℚ) := by norm_num
      _ ≤ ((|roundHalfEvenQ x - k| : ℤ) : ℚ) := by exact_mod_cast hz
      _ = |(roundHalfEvenQ x : ℚ) - (k : ℚ)| := by push_cast; ring_nf
    have h3 := abs_sub_le ((roundHalfEvenQ x : ℚ)) x (k : ℚ)
    have h4 : |(roundHalfEvenQ x : ℚ) - x| = |x - (roundHalfEvenQ x : ℚ)| := abs_sub_comm _ _
    linarith

/-- Rounding onto the grid of multiples of `2^g` yields a nearest grid
point. -/
theorem grid_nearest (q : ℚ) (g k : ℤ) :
    |q - (roundHalfEvenQ (q / (2 : ℚ) ^ g) : ℚ) * (2 : ℚ) ^ g| ≤
      |q - (k : ℚ) * (2 : ℚ) ^ g| := by
  have hd : (0 : ℚ) < (2 : ℚ) ^ g := zpow_pos (by norm_num) g
  have hq : q = q / (2 : ℚ) ^ g * (2 : ℚ) ^ g := (div_mul_cancel₀ q (ne_of_gt hd)).symm
  calc |q - (roundHalfEvenQ (q / (2 : ℚ) ^ g) : ℚ) * (2 : ℚ) ^ g|
      = |q / (2 : ℚ) ^ g - (roundHalfEvenQ (q / (2 : ℚ) ^ g) : ℚ)| * (2 : ℚ) ^ g := by
        nth_rewrite 1 [hq]
        rw [← sub_mul, abs_mul, abs_of_pos hd]
    _ ≤ |q / (2 : ℚ) ^ g - (k : ℚ)| * (2 : ℚ) ^ g :=
        mul_le_mul_of_nonneg_right (rhe_nearest_int _ k) hd.le
    _ = |q - (k : ℚ) * (2 : ℚ) ^ g| := by
        have hsub : (q / (2 : ℚ) ^ g - (k : ℚ)) * (2 : ℚ) ^ g =
            q - (k : ℚ) * (2 : ℚ) ^ g := by
          rw [sub_mul, div_mul_cancel₀ q (ne_of_gt hd)]
        rw [← hsub, abs_mul, abs_of_pos hd]

/-- Every representable value at least as large as `2^e` lies on the grid
of multiples of `2^(e-52)`: the grid of the binade of exponent `e`. -/
theorem repr_ge_binade_grid (mr er e : ℤ) (hm : mr.natAbs ≤ 2 ^ 53)
    (hge : (2 : ℚ) ^ e ≤ (mr : ℚ) * (2 : ℚ) ^ er) :
    ∃ k : ℤ, (mr : ℚ) * (2 : ℚ) ^ er = (k : ℚ) * (2 : ℚ) ^ (e - 52) := by
  by_cases hE : e - 52 ≤ er
  · refine ⟨mr * 2 ^ (er - (e - 52)).toNat, ?_⟩
    push_cast
    rw [mul_assoc]
    congr 1
    rw [← zpow_natCast (2 : ℚ) (er - (e - 52)).toNat,
      ← zpow_add₀ (by norm_num : (2 : ℚ) ≠ 0)]
    congr 1
    omega
  · have hEr : er < e - 52 := by omega
    have h2er : (0 : ℚ) < (2 : ℚ) ^ er := zpow_pos (by norm_num) er
    have hmr_pos : (0 : ℚ) < (mr : ℚ) := by
      rcases lt_or_le 0 (mr : ℚ) with hpos | hneg
      · exact hpos
      · exfalso
        have h2e : (0 : ℚ) < (2 : ℚ) ^ e := zpow_pos (by norm_num) e
        nlinarith
    have h1 : (2 : ℚ) ^ (e - er) ≤ (mr : ℚ) := by
      rw [zpow_sub₀ (by norm_num : (2 : ℚ) ≠ 0), div_le_iff₀ h2er]
      exact hge
    have h53 : (2 : ℚ) ^ (53 : ℤ) ≤ (mr : ℚ) :=
      le_trans (zpow_le_zpow_right₀ (by norm_num) (by omega)) h1
    have hcast53 : ((2 ^ 53 : ℤ) : ℚ) = (2 : ℚ) ^ (53 : ℤ) := by norm_num
    have hm2 : (mr : ℚ) ≤ (2 : ℚ) ^ (53 : ℤ) := by
      have hpow2 : (2 : ℤ) ^ 53 = 9007199254740992 := by norm_num
      have hpown : (2 : ℕ) ^ 53 = 9007199254740992 := by norm_num
      have hint : mr ≤ 2 ^ 53 := by omega
      calc (mr : ℚ) ≤ ((2 ^ 53 : ℤ) : ℚ) := by exact_mod_cast hint
      _ = (2 : ℚ) ^ (53 : ℤ) := hcast53
    have heq : (mr : ℚ) = (2 : ℚ) ^ (53 : ℤ) := le_antisymm hm2 h53
    have her : er = e - 53 := by
      have h2 : (2 : ℚ) ^ e ≤ (2 : ℚ) ^ ((53 : ℤ) + er) := by
        rw [zpow_add₀ (by norm_num : (2 : ℚ) ≠ 0), ← heq]
        exact hge
      have h3 := (zpow_le_zpow_iff_right₀ (by norm_num : (1 : ℚ) < 2)).mp h2
      omega
    refine ⟨2 ^ 52, ?_⟩
    rw [heq, her, ← zpow_add₀ (by norm_num : (2 : ℚ) ≠ 0)]
    have hcast52 : ((2 ^ 52 : ℤ) : ℚ) = (2 : ℚ) ^ (52 : ℤ) := by norm_num
    rw [hcast52, ← zpow_add₀ (by norm_num : (2 : ℚ) ≠ 0)]
    congr 1
    omega

/-- In the normal range the float rounding is ties-to-even rounding onto
the binade grid. -/
theorem roundFloat_eq (q : ℚ) (h0 : 0 < q) (hlo : -1022 ≤ binExp q) :
    roundFloat q =
      (roundHalfEvenQ (q / (2 : ℚ) ^ (binExp q - 52)) : ℚ) *
        (2 : ℚ) ^ (binExp q - 52) := by
  unfold roundFloat
  rw [if_neg (not_le.mpr h0), max_eq_left hlo]
  simp only [pow2z_eq]

/-- In the normal range, float rounding produces a representable value no
larger than the top of the binade, and that value is a nearest
representable to the argument. -/
theorem roundFloat_nearest (q : ℚ) (h0 : 0 < q) (hlo : -1022 ≤ binExp q) :
    IsRepr (roundFloat q) ∧ roundFloat q ≤ (2 : ℚ) ^ (binExp q + 1) ∧
      ∀ r : ℚ, IsRepr r → |q - roundFloat q| ≤ |q - r| := by
  obtain ⟨hq1, hq2⟩ := binExp_spec q h0
  set e := binExp q with hedef
  set g : ℤ := e - 52 with hgdef
  have hd : (0 : ℚ) < (2 : ℚ) ^ g := zpow_pos (by norm_num) g
  have hrf := roundFloat_eq q h0 hlo
  set m := roundHalfEvenQ (q / (2 : ℚ) ^ g) with hmdef
  have hc52 : ((2 ^ 52 : ℤ) : ℚ) = (2 : ℚ) ^ (52 : ℤ) := by norm_num
  have hc53 : ((2 ^ 53 : ℤ) : ℚ) = (2 : ℚ) ^ (53 : ℤ) := by norm_num
  have hx1 : (2 : ℚ) ^ (52 : ℤ) ≤ q / (2 : ℚ) ^ g := by
    rw [le_div_iff₀ hd, ← zpow_add₀ (by norm_num : (2 : ℚ) ≠ 0)]
    have hexp : (52 : ℤ) + g = e := by omega
    rw [hexp]
    exact hq1
  have hx2 : q / (2 : ℚ) ^ g < (2 : ℚ) ^ (53 : ℤ) := by
    rw [div_lt_iff₀ hd, ← zpow_add₀ (by norm_num : (2 : ℚ) ≠ 0)]
    have hexp : (53 : ℤ) + g = e + 1 := by omega
    rw [hexp]
    exact hq2
  have hfl1 : (2 : ℤ) ^ 52 ≤ ⌊q / (2 : ℚ) ^ g⌋ := by
    apply Int.le_floor.mpr
    rw [hc52]
    exact hx1
  have hfl2 : ⌊q / (2 : ℚ) ^ g⌋ < (2 : ℤ) ^ 53 := by
    apply Int.floor_lt.mpr
    rw [hc53]
    exact hx2
  have hm1 : (2 : ℤ) ^ 52 ≤ m := le_trans hfl1 (rhe_ge_floor _)
  have hm2 : m ≤ 2 ^ 53 := by
    have hub := rhe_le_floor_add_one (q / (2 : ℚ) ^ g)
    have hpow2 : (2 : ℤ) ^ 53 = 9007199254740992 := by norm_num
    have hpow1 : (2 : ℤ) ^ 52 = 4503599627370496 := by norm_num
    omega
  have hmQ : (m : ℚ) ≤ (2 : ℚ) ^ (53 : ℤ) := by
    rw [← hc53]
    exact_mod_cast hm2
  refine ⟨⟨m, g, ?_, ?_, hrf⟩, ?_, ?_⟩
  · have hpow2 : (2 : ℤ) ^ 53 = 9007199254740992 := by norm_num
    have hpow1 : (2 : ℤ) ^ 52 = 4503599627370496 := by norm_num
    have hpown : (2 : ℕ) ^ 53 = 9007199254740992 := by norm_num
    omega
  · omega
  · rw [hrf]
    have htop : (2 : ℚ) ^ (e + 1) = (2 : ℚ) ^ (53 : ℤ) * (2 : ℚ) ^ g := by
      rw [← zpow_add₀ (by norm_num : (2 : ℚ) ≠ 0)]
      congr 1
      omega
    rw [htop]
    exact mul_le_mul_of_nonneg_right hmQ hd.le
  · intro r hr
    obtain ⟨mr, er, hmr, her, hreq⟩ := hr
    rcases le_or_lt ((2 : ℚ) ^ e) r with hcase | hcase
    · rw [hreq] at hcase
      obtain ⟨k, hk⟩ := repr_ge_binade_grid mr er e hmr hcase
      rw [hreq, hk, hrf]
      exact grid_nearest q g k
    · have h2e : (2 : ℚ) ^ e = ((2 ^ 52 : ℤ) : ℚ) * (2 : ℚ) ^ g := by
        rw [hc52, ← zpow_add₀ (by norm_num : (2 : ℚ) ≠ 0)]
        congr 1
        omega
      have hc2e : |q - roundFloat q| ≤ |q - (2 : ℚ) ^ e| := by
        rw [hrf, h2e]
        exact grid_nearest q g (2 ^ 52)
      have habs1 : |q - (2 : ℚ) ^ e| = q - (2 : ℚ) ^ e := abs_of_nonneg (by linarith)
      have habs2 : |q - r| = q - r := abs_of_nonneg (by linarith)
      rw [habs2]
      rw [habs1] at hc2e
      linarith

/-- C6: fraction bounds are parsed exactly and then correctly rounded: for
every bound string that `Fraction` parses to the rational `q` (in the
normal float range), `s2f` returns a binary64-representable value that is
nearest to `q` among all representable values; in particular
`"5001/20000"` parses to the float nearest `5001/20000` (see the witness),
not a value obtained by naive decimal truncation. -/
theorem s2f_nearest_float (s : String) (q : ℚ)
    (hp : parseFraction s = Except.ok q)
    (hlo : (2 : ℚ) ^ (-900 : ℤ) ≤ q) (hhi : q ≤ (2 : ℚ) ^ (900 : ℤ)) :
    s2f s = Except.ok (roundFloat q) ∧ IsRepr (roundFloat q) ∧
      ∀ r : ℚ, IsRepr r → |q - roundFloat q| ≤ |q - r| := by
  have h0 : 0 < q := lt_of_lt_of_le (zpow_pos (by norm_num) _) hlo
  obtain ⟨hq1, hq2⟩ := binExp_spec q h0
  have hbin_lo : -1022 ≤ binExp q := by
    have hlt : (2 : ℚ) ^ (-900 : ℤ) < 2 ^ (binExp q + 1) := lt_of_le_of_lt hlo hq2
    have := (zpow_lt_zpow_iff_right₀ (by norm_num : (1 : ℚ) < 2)).mp hlt
    omega
  have hbin_hi : binExp q ≤ 900 := by
    have hle : (2 : ℚ) ^ binExp q ≤ 2 ^ (900 : ℤ) := le_trans hq1 hhi
    exact (zpow_le_zpow_iff_right₀ (by norm_num : (1 : ℚ) < 2)).mp hle
  obtain ⟨hrepr, hbound, hnear⟩ := roundFloat_nearest q h0 hbin_lo
  have hov : ¬ ((2 ^ 1024 : ℕ) : ℚ) ≤ roundFloat q := by
    push_neg
    have h1 : (2 : ℚ) ^ (binExp q + 1) ≤ 2 ^ (901 : ℤ) :=
      zpow_le_zpow_right₀ (by norm_num) (by omega)
    have h2 : ((2 ^ 1024 : ℕ) : ℚ) = (2 : ℚ) ^ (1024 : ℤ) := by norm_num
    have h3 : (2 : ℚ) ^ (901 : ℤ) < 2 ^ (1024 : ℤ) :=
      (zpow_lt_zpow_iff_right₀ (by norm_num : (1 : ℚ) < 2)).mpr (by omega)
    rw [h2]
    linarith
  refine ⟨?_, hrepr, hnear⟩
  unfold s2f
  simp only [hp]
  rw [if_neg hov]

/-- Witness for C6 at the spec's example `"5001/20000"`: the parsed value
is exactly the binary64 value `2252250173647985 / 2^53` nearest to
`5001/20000`. -/
theorem s2f_nearest_float_witness :
    s2f "5001/20000" = Except.ok ((2252250173647985 : ℚ) / 9007199254740992) ∧
    (s2f "5001/20000" = Except.ok (roundFloat (5001 / 20000 : ℚ)) ∧
      IsRepr (roundFloat (5001 / 20000 : ℚ)) ∧
      ∀ r : ℚ, IsRepr r →
        |(5001 / 20000 : ℚ) - roundFloat (5001 / 20000 : ℚ)| ≤
          |(5001 / 20000 : ℚ) - r|) :=
  ⟨by decide,
    s2f_nearest_float "5001/20000" (5001 / 20000) (by decide)
      (by
        calc (2 : ℚ) ^ (-900 : ℤ) ≤ (2 : ℚ) ^ (-2 : ℤ) :=
              zpow_le_zpow_right₀ (by norm_num) (by omega)
        _ = 1 / 4 := by norm_num
        _ ≤ 5001 / 20000 := by norm_num)
      (by
        calc (5001 / 20000 : ℚ) ≤ 1 := by norm_num
        _ = (2 : ℚ) ^ (0 : ℤ) := by norm_num
        _ ≤ (2 : ℚ) ^ (900 : ℤ) := zpow_le_zpow_right₀ (by norm_num) (by omega))⟩

end RD
